import Mathlib

/-!
Verification of the TPEC website's client-side i18n and project-rendering
pipeline (src/assets/js/config.js and the projects-page module) against its
natural-language specification.  JavaScript values are shallowly embedded as
an inductive `JSValue`; stateful components (language store, DOM bindings)
become explicit state-passing functions; the fetch-retry loop becomes a
recursive function over a success oracle.
-/

namespace TPEC

/-- A JavaScript value, as far as the i18n code can observe one: the
translation dictionaries are JSON trees (objects, arrays, strings, numbers,
booleans, null) and lookups may additionally produce `undefined`. -/
inductive JSValue where
  | undef : JSValue
  | null : JSValue
  | bool : Bool → JSValue
  | num : Int → JSValue
  | str : String → JSValue
  | arr : List JSValue → JSValue
  | obj : List (String × JSValue) → JSValue
deriving Repr

namespace JSValue

/-- The strict test `v !== undefined`, negated. -/
def isUndef : JSValue → Bool
  | undef => true
  | _ => false

/-- The strict test `v !== null`, negated. -/
def isNull : JSValue → Bool
  | null => true
  | _ => false

/-- JavaScript truthiness: `undefined`, `null`, `false`, `0` and `""` are
falsy; every object and array is truthy. -/
def truthy : JSValue → Bool
  | undef => false
  | null => false
  | bool b => b
  | num n => n != 0
  | str s => s != ""
  | arr _ => true
  | obj _ => true

/-- First-match field lookup in an object literal, the semantics of
`o[key]` on a plain JS object (absent field gives `undefined`). -/
def lookupField : List (String × JSValue) → String → JSValue
  | [], _ => undef
  | (k, v) :: rest, key => if k = key then v else lookupField rest key

/-- Property access `v[key]` on a value already known to be truthy (the
source only accesses after a `current &&` guard).  Objects look up a field;
arrays and strings expose `length` and numeric indices; other primitives
have no own properties of interest, giving `undefined`. -/
def member : JSValue → String → JSValue
  | obj fields, key => lookupField fields key
  | arr elems, key =>
      if key = "length" then num elems.length
      else match key.toNat? with
        | some i => (elems.get? i).getD undef
        | none => undef
  | str s, key =>
      if key = "length" then num s.length
      else match key.toNat? with
        | some i => match s.toList.get? i with
          | some c => str (String.mk [c])
          | none => undef
        | none => undef
  | _, _ => undef

end JSValue

open JSValue

/-! ### `I18n.getNestedValue`

Source (config.js):
```
getNestedValue(obj, path) {
  if (!obj || !path) return undefined;
  try {
    return path.split('.').reduce((current, key) => {
      return current && current[key] !== undefined ? current[key] : undefined;
    }, obj);
  } catch (error) { return undefined; }
}
```
-/

/-- Accumulator pass of `jsSplit` (`acc` holds the current piece's
characters in reverse). -/
def jsSplitAux (sep : Char) : List Char → List Char → List String
  | [], acc => [String.mk acc.reverse]
  | c :: rest, acc =>
      if c = sep then String.mk acc.reverse :: jsSplitAux sep rest []
      else jsSplitAux sep rest (c :: acc)

/-- JS `s.split(sep)` for a single-character separator: `""` splits to
`[""]`, adjacent separators yield empty pieces, exactly as
`String.prototype.split`. -/
def jsSplit (s : String) (sep : Char) : List String :=
  jsSplitAux sep s.toList []

/-- One step of the `reduce` callback: `current && current[key] !== undefined
? current[key] : undefined`.  The `current &&` short-circuit means the
property access only happens on a truthy value. -/
def nestedStep (current : JSValue) (key : String) : JSValue :=
  if current.truthy then
    if ¬ (current.member key).isUndef then current.member key else JSValue.undef
  else JSValue.undef

/-- `I18n.getNestedValue`: dotted-path traversal, `undefined` on any miss. -/
def getNestedValue (o : JSValue) (path : String) : JSValue :=
  if ¬ o.truthy ∨ path = "" then JSValue.undef
  else (jsSplit path '.').foldl nestedStep o

/-- Property access in a semantics where reading a property of `undefined`
or `null` throws a TypeError (`Except.error`); used to show the source's
guards make `getNestedValue` total.  On any other receiver access succeeds
with the value `member` gives. -/
def memberE (v : JSValue) (key : String) : Except Unit JSValue :=
  match v with
  | JSValue.undef => Except.error ()
  | JSValue.null => Except.error ()
  | _ => Except.ok (v.member key)

/-- The `reduce` callback evaluated under throwing-access semantics: the
`current &&` guard short-circuits before `current[key]` is evaluated, so the
access is only attempted on a truthy receiver. -/
def nestedStepE (current : JSValue) (key : String) : Except Unit JSValue :=
  if current.truthy then do
    let v ← memberE current key
    pure (if ¬ v.isUndef then v else JSValue.undef)
  else pure JSValue.undef

/-- `getNestedValue` evaluated under throwing-access semantics. -/
def getNestedValueE (o : JSValue) (path : String) : Except Unit JSValue :=
  if ¬ o.truthy ∨ path = "" then pure JSValue.undef
  else (jsSplit path '.').foldlM nestedStepE o

/-! ### `I18n.handleMissingKey` and `I18n.t` -/

/-- The character translation of `key.replace(/[_-]/g, ' ')`. -/
def dashToSpace (c : Char) : Char :=
  if c = '_' ∨ c = '-' then ' ' else c

/-- Is `c` a JS `\w` word character (`[A-Za-z0-9_]`)? -/
def isWordChar (c : Char) : Bool :=
  ('a' ≤ c ∧ c ≤ 'z') ∨ ('A' ≤ c ∧ c ≤ 'Z') ∨ ('0' ≤ c ∧ c ≤ '9') ∨ c = '_'

/-- `.replace(/\b\w/g, l => l.toUpperCase())` over a character list: a word
character at a word boundary (start of string, or preceded by a non-word
character) is uppercased.  `prevWord` records whether the previous character
was a word character. -/
def capWordStarts : Bool → List Char → List Char
  | _, [] => []
  | prevWord, c :: rest =>
      (if ¬ prevWord ∧ isWordChar c then c.toUpper else c) :: capWordStarts (isWordChar c) rest

/-- The readable-placeholder transformation of `handleMissingKey`:
underscores/hyphens become spaces, then each word-initial character is
uppercased. -/
def readableFromSegment (seg : String) : String :=
  String.mk (capWordStarts false (seg.toList.map dashToSpace))

/-- The last dotted-path segment of a key (`parts[parts.length - 1]`;
`jsSplit` never returns `[]`, matching JS `split`). -/
def lastSegment (key : String) : String :=
  (jsSplit key '.').getLastD ""

/-- `I18n.handleMissingKey`: with the default fallback `"[MISSING]"`, build
a readable placeholder from the key's last segment; any other fallback is
returned verbatim. -/
def handleMissingKey (key fallback : String) : String :=
  if fallback = "[MISSING]" then
    "[MISSING: " ++ readableFromSegment (lastSegment key) ++ "]"
  else fallback

/-- The usability test of `I18n.t`:
`translation !== undefined && translation !== null && translation !== ''`
(strict comparisons, so only the string `""` fails the third test). -/
def usable (v : JSValue) : Bool :=
  match v with
  | JSValue.undef => false
  | JSValue.null => false
  | JSValue.str s => s != ""
  | _ => true

/-- The `translations` slot of the I18n instance: an object keyed by
language code (`this.translations[lang]`, `undefined` when absent). -/
def langDict (translations : List (String × JSValue)) (lang : String) : JSValue :=
  lookupField translations lang

/-- The designated default language, `this.fallbackLang = 'en'`. -/
def fallbackLang : String := "en"

/-- `I18n.t(key, fallback)`: resolve in the active language; if the value is
`undefined`, `null` or `""`, retry in the default language; if still not
usable, hand off to `handleMissingKey`.  The source's `try`/`catch` is
modelled away: `getNestedValueE_ok` proves the body cannot throw. -/
def t (translations : List (String × JSValue)) (currentLang : String)
    (key : String) (fallback : String := "[MISSING]") : JSValue :=
  let translation := getNestedValue (langDict translations currentLang) key
  if usable translation then translation
  else if currentLang ≠ fallbackLang then
    let fallbackTranslation := getNestedValue (langDict translations fallbackLang) key
    if usable fallbackTranslation then fallbackTranslation
    else JSValue.str (handleMissingKey key fallback)
  else JSValue.str (handleMissingKey key fallback)

/-! ### DOM Text Binder and language switch (`I18n.applyTranslations`, `I18n.set`) -/

/-- An element carrying the `data-i18n` marker: its translation key, the
optional `data-i18n-attr` target attribute name, and the currently written
value.  `applyTranslations` writes the resolved value into the text content
or the named attribute; either way it is the element's single bound slot,
modelled as `content` (`textContent` receives its string coercion). -/
structure BoundElem where
  key : String
  attrTarget : Option String
  content : JSValue

/-- `I18n.applyTranslations`: for every element with a `data-i18n`
attribute, write `t(key)` (default fallback) into its bound slot. -/
def applyTranslations (translations : List (String × JSValue)) (currentLang : String)
    (dom : List BoundElem) : List BoundElem :=
  dom.map (fun e => { e with content := t translations currentLang e.key })

/-- The mutable state the language-switch protocol touches: the in-memory
`this.currentLang`, the persisted `localStorage['preferred-language']`
entry, the document's `lang` attribute, and the bound elements of the
document. -/
structure I18nState where
  currentLang : String
  storedLang : Option String
  docLang : String
  dom : List BoundElem

/-- `I18n.set(language)`: a no-op when `language` equals the current
language; otherwise unconditionally adopt `language` (the source performs no
membership test against `{en, lo}`), persist it, re-apply translations and
update the document's `lang` attribute. -/
def set (translations : List (String × JSValue)) (language : String)
    (st : I18nState) : I18nState :=
  if language = st.currentLang then st
  else
    { currentLang := language
      storedLang := some language
      docLang := language
      dom := applyTranslations translations language st.dom }

/-! ### `ErrorHandler.fetchWithRetry`

Constants from the `ErrorHandler` constructor: `maxRetries = 3`,
`retryDelay = 1000` (milliseconds).  One logical fetch operation is the
recursion on `attempts` (the `retryAttempts` map entry, which the function
itself increments before each retry and deletes on exit); `oracle a` tells
whether the underlying fetch at recursion depth `a` succeeds with an `ok`
response.
-/

/-- `this.maxRetries` from the `ErrorHandler` constructor. -/
def maxRetries : Nat := 3

/-- `this.retryDelay` (milliseconds) from the `ErrorHandler` constructor. -/
def retryDelay : Nat := 1000

/-- The observable outcome of one logical `fetchWithRetry` run: whether it
resolved with a response, how many underlying fetch calls it made, and the
backoff delays (ms) slept between consecutive calls. -/
structure FetchTrace where
  success : Bool
  calls : Nat
  delays : List Nat
deriving Repr, DecidableEq

/-- `ErrorHandler.fetchWithRetry`: try the fetch; on failure, while
`attempts < maxRetries`, sleep `retryDelay * 2 ^ attempts` and recurse with
`attempts + 1`; otherwise re-throw the error to the caller. -/
def fetchWithRetry (oracle : Nat → Bool) (attempts : Nat) : FetchTrace :=
  if oracle attempts then
    { success := true, calls := 1, delays := [] }
  else if h : attempts < maxRetries then
    let rest := fetchWithRetry oracle (attempts + 1)
    { success := rest.success
      calls := rest.calls + 1
      delays := retryDelay * 2 ^ attempts :: rest.delays }
  else
    { success := false, calls := 1, delays := [] }
termination_by maxRetries - attempts
decreasing_by omega

/-! ### `I18n.loadTranslations` and the localStorage cache -/

/-- A parsed `i18n-cache-<lang>` localStorage entry: the serialized
dictionary plus the timestamp recorded by `saveToCache`. -/
structure CacheEntry where
  translations : JSValue
  timestamp : Nat

/-- The 24-hour freshness window, `24 * 60 * 60 * 1000` ms. -/
def cacheMaxAge : Nat := 24 * 60 * 60 * 1000

/-- `I18n.loadFromCache`: return the cached dictionary only when an entry
exists (and parses — an absent or unparsable entry is `none` here, the
source's `catch` path) and its timestamp is within the freshness window. -/
def loadFromCache (cached : Option CacheEntry) (now : Nat) : Option JSValue :=
  match cached with
  | some entry =>
      if now - entry.timestamp < cacheMaxAge then some entry.translations else none
  | none => none

/-- The built-in `en` fallback dictionary literal of
`I18n.getFallbackTranslations`. -/
def fallbackEn : JSValue :=
  JSValue.obj
    [ ("nav", JSValue.obj
        [ ("home", JSValue.str "Home")
        , ("about", JSValue.str "About Us")
        , ("projects", JSValue.str "Projects")
        , ("contact", JSValue.str "Contact")
        , ("logo", JSValue.str "ConstructCo") ])
    , ("hero", JSValue.obj
        [ ("title", JSValue.str "Professional Construction Consulting")
        , ("subtitle", JSValue.str "Expert guidance for your construction projects")
        , ("cta", JSValue.str "View Our Projects") ])
    , ("loading", JSValue.obj
        [ ("default", JSValue.str "Loading...")
        , ("error", JSValue.str "Failed to load content. Please try again.") ]) ]

/-- The built-in `lo` fallback dictionary literal of
`I18n.getFallbackTranslations`. -/
def fallbackLo : JSValue :=
  JSValue.obj
    [ ("nav", JSValue.obj
        [ ("home", JSValue.str "ໜ້າຫຼັກ")
        , ("about", JSValue.str "ກ່ຽວກັບພວກເຮົາ")
        , ("projects", JSValue.str "ໂຄງການ")
        , ("contact", JSValue.str "ຕິດຕໍ່")
        , ("logo", JSValue.str "ConstructCo") ])
    , ("hero", JSValue.obj
        [ ("title", JSValue.str "ບໍລິການປຶກສາກໍ່ສ້າງແບບມືອາຊີບ")
        , ("subtitle", JSValue.str "ຄໍາແນະນໍາຈາກຜູ້ຊ່ຽວຊານສໍາລັບໂຄງການກໍ່ສ້າງຂອງທ່ານ")
        , ("cta", JSValue.str "ເບິ່ງໂຄງການຂອງພວກເຮົາ") ])
    , ("loading", JSValue.obj
        [ ("default", JSValue.str "ກໍາລັງໂຫລດ...")
        , ("error", JSValue.str "ບໍ່ສາມາດໂຫລດເນື້ອຫາໄດ້. ກະລຸນາລອງໃໝ່.") ]) ]

/-- The `fallbacks` object of `getFallbackTranslations`. -/
def fallbackDicts : List (String × JSValue) :=
  [("en", fallbackEn), ("lo", fallbackLo)]

/-- `I18n.getFallbackTranslations`: `fallbacks[lang] || fallbacks.en`. -/
def getFallbackTranslations (lang : String) : JSValue :=
  let v := lookupField fallbackDicts lang
  if v.truthy then v else lookupField fallbackDicts "en"

/-- Does an object literal contain the key? -/
def containsKey (fields : List (String × JSValue)) (k : String) : Bool :=
  fields.any (fun kv => kv.1 = k)

/-- The JS object spread `{...a, ...b}` on field lists: `a`'s keys in order,
overridden by `b`'s value when `b` has the key, followed by `b`'s keys not
in `a`. -/
def spreadMerge (a b : List (String × JSValue)) : List (String × JSValue) :=
  a.map (fun kv => if containsKey b kv.1 then (kv.1, lookupField b kv.1) else kv)
    ++ b.filter (fun kv => ¬ containsKey a kv.1)

/-- `{...a, ...b}` at the value level.  `a` is always the built-in fallback
object here; spreading a non-object `b` contributes no string-keyed own
properties of interest. -/
def jsSpread2 (a b : JSValue) : JSValue :=
  match a, b with
  | JSValue.obj fa, JSValue.obj fb => JSValue.obj (spreadMerge fa fb)
  | JSValue.obj fa, _ => JSValue.obj fa
  | _, _ => a

/-- One iteration of the `I18n.loadTranslations` loop, for language `lang`:
on a successful fetch-and-parse (`fetched = some dict`) the dictionary is
the parsed response and the cache is never consulted; on failure the slot
gets the built-in fallback, merged (spread) with the cached copy when
`loadFromCache` yields one. -/
def loadTranslationsLang (lang : String) (fetched : Option JSValue)
    (cached : Option CacheEntry) (now : Nat) : JSValue :=
  match fetched with
  | some dict => dict
  | none =>
      let base := getFallbackTranslations lang
      match loadFromCache cached now with
      | some cachedTranslations => jsSpread2 base cachedTranslations
      | none => base

/-! ### Project Data Renderer (projects page module) -/

/-- A project record of `projects.json` (required string fields per the
collection format; the optional `gallery` is irrelevant to card/tab
rendering and to deep-linking). -/
structure Project where
  slug : String
  title : String
  status : String
  location : String
  scope : String
  year : String
  cover : String
  summaryKey : String
deriving Repr, DecidableEq

/-- The data `createProjectCard` bakes into one card: the
`data-project-slug` attribute, the stagger index (`--delay` is
`index * 0.1` seconds), and the interpolated display fields; `summary` is
`i18n.t(project.summary_i18n_key, 'Project description not available')`. -/
structure ProjectCard where
  slug : String
  index : Nat
  title : String
  summary : JSValue
  location : String
  year : String
  scope : String
  cover : String

/-- `App.createProjectCard`. -/
def createProjectCard (translations : List (String × JSValue)) (currentLang : String)
    (project : Project) (index : Nat) : ProjectCard :=
  { slug := project.slug
    index := index
    title := project.title
    summary := t translations currentLang project.summaryKey "Project description not available"
    location := project.location
    year := project.year
    scope := project.scope
    cover := project.cover }

/-- What a grid container holds after `renderProjectGrid`: either the
empty-state message or one card per record. -/
inductive GridContent where
  | emptyState (message : JSValue)
  | cards (cs : List ProjectCard)

/-- The cards present in a rendered grid (the empty state has none). -/
def GridContent.cardList : GridContent → List ProjectCard
  | emptyState _ => []
  | cards cs => cs

/-- `App.renderProjectGrid`: clear the container; an empty collection gets
the empty-state message, otherwise one card per record, in input order,
indexed by position. -/
def renderProjectGrid (translations : List (String × JSValue)) (currentLang : String)
    (projects : List Project) : GridContent :=
  if projects.length = 0 then
    GridContent.emptyState (t translations currentLang "projects.empty"
      "No projects found in this category.")
  else
    GridContent.cards
      (projects.enum.map (fun ip => createProjectCard translations currentLang ip.2 ip.1))

/-- `App.renderProjectTabs`: filter the collection by
`status === 'ongoing'` / `status === 'completed'` and render each filtered
list into its grid.  The source's guards for missing grid containers, a
missing collection, and null records are vacuous here: the claims concern
the projects page with both containers present and a loaded array of
records. -/
def renderProjectTabs (translations : List (String × JSValue)) (currentLang : String)
    (projects : List Project) : GridContent × GridContent :=
  let ongoingProjects := projects.filter (fun p => p.status == "ongoing")
  let completedProjects := projects.filter (fun p => p.status == "completed")
  (renderProjectGrid translations currentLang ongoingProjects,
   renderProjectGrid translations currentLang completedProjects)

/-- The projects page's detail-view state: closed, or expanded on a slug
(the slug is mirrored into the URL hash). -/
inductive DetailState where
  | closed
  | expanded (slug : String)
deriving Repr, DecidableEq

/-- The deep-link resolution `loadProjects` performs once the collection is
loaded (`setupProjectDeepLinking` stored `this.initialHash`): when the hash
is non-empty (truthy) and `this.projects.find(p => p.slug === hash)` finds
a record, `showProjectDetail` opens that record's detail view; otherwise
nothing happens and the detail view stays closed. -/
def resolveDeepLink (projects : List Project) (initialHash : String) : DetailState :=
  if initialHash ≠ "" then
    match projects.find? (fun p => p.slug == initialHash) with
    | some project => DetailState.expanded project.slug
    | none => DetailState.closed
  else DetailState.closed

/-! ### Auxiliary definitions for the verification -/

/-- `I18n.t` evaluated under throwing-access semantics (`getNestedValueE`):
used to show the body of `t` cannot raise, so the source's `try`/`catch` is
unreachable and the pure `t` is exact. -/
def tE (translations : List (String × JSValue)) (currentLang : String)
    (key : String) (fallback : String := "[MISSING]") : Except Unit JSValue := do
  let translation ← getNestedValueE (langDict translations currentLang) key
  if usable translation then pure translation
  else if currentLang ≠ fallbackLang then do
    let fallbackTranslation ← getNestedValueE (langDict translations fallbackLang) key
    if usable fallbackTranslation then pure fallbackTranslation
    else pure (JSValue.str (handleMissingKey key fallback))
  else pure (JSValue.str (handleMissingKey key fallback))

/-- Helper for `specTitleCase`: insert a space before each uppercase letter
that follows a lowercase letter (the camelCase word boundary). -/
def insertCamelSpaces : Option Char → List Char → List Char
  | _, [] => []
  | prev, c :: rest =>
      (match prev with
        | some p => if p.isLower ∧ c.isUpper then [' ', c] else [c]
        | none => [c]) ++ insertCamelSpaces (some c) rest

/-- Modelled from the spec's words, for comparison against the source's
`readableFromSegment` only: "underscore/camelCase converted to Title Case" —
split the segment at camelCase boundaries and at underscores/hyphens, then
uppercase the first letter of each word. -/
def specTitleCase (seg : String) : String :=
  String.mk (capWordStarts false ((insertCamelSpaces none seg.toList).map dashToSpace))

/-- Concrete project record (the spec's example ongoing project). -/
def bridgeA : Project :=
  { slug := "bridge-a", title := "Bridge A", status := "ongoing",
    location := "Vientiane", scope := "Design review", year := "2024",
    cover := "bridge-a.jpg", summaryKey := "projects.bridge_a.summary" }

/-- Concrete project record (the spec's example completed project). -/
def roadB : Project :=
  { slug := "road-b", title := "Road B", status := "completed",
    location := "Luang Prabang", scope := "Supervision", year := "2023",
    cover := "road-b.jpg", summaryKey := "projects.road_b.summary" }

/-! ## Helper lemmas -/

/-- `t` unfolded to its decision tree (the local `const` bindings of the
source zeta-reduced). -/
theorem t_eq (tr : List (String × JSValue)) (lang key fb : String) :
    t tr lang key fb =
      if usable (getNestedValue (langDict tr lang) key) = true then
        getNestedValue (langDict tr lang) key
      else if lang ≠ fallbackLang then
        if usable (getNestedValue (langDict tr fallbackLang) key) = true then
          getNestedValue (langDict tr fallbackLang) key
        else JSValue.str (handleMissingKey key fb)
      else JSValue.str (handleMissingKey key fb) := rfl

/-- A value passing the usability test of `t` is not `undefined`. -/
theorem usable_not_undef (v : JSValue) (h : usable v = true) : v.isUndef = false := by
  cases v <;> simp_all [usable, JSValue.isUndef]

/-- A value passing the usability test of `t` is not `null`. -/
theorem usable_not_null (v : JSValue) (h : usable v = true) : v.isNull = false := by
  cases v <;> simp_all [usable, JSValue.isNull]

/-- The guarded `reduce` callback never throws: under throwing-access
semantics it returns exactly the pure step's value. -/
theorem nestedStepE_ok (c : JSValue) (k : String) :
    nestedStepE c k = Except.ok (nestedStep c k) := by
  cases c <;>
    simp [nestedStepE, nestedStep, JSValue.truthy, memberE, pure, Except.pure, bind,
      Except.bind] <;>
    split_ifs <;> rfl

/-- Folding the guarded callback never throws. -/
theorem foldlM_nestedStepE (l : List String) (o : JSValue) :
    List.foldlM nestedStepE o l = Except.ok (List.foldl nestedStep o l) := by
  induction l generalizing o with
  | nil => rfl
  | cons x xs ih =>
      simp only [List.foldlM, List.foldl, nestedStepE_ok]
      exact ih _

/-- `getNestedValue` never throws: the throwing-semantics evaluation
succeeds with the pure value. -/
theorem getNestedValueE_ok (o : JSValue) (path : String) :
    getNestedValueE o path = Except.ok (getNestedValue o path) := by
  unfold getNestedValueE getNestedValue
  split
  · rfl
  · exact foldlM_nestedStepE _ _

/-- Re-running the binder overwrites every bound slot, so the last language
applied wins. -/
theorem applyTranslations_overwrite (tr : List (String × JSValue)) (l l' : String)
    (d : List BoundElem) :
    applyTranslations tr l (applyTranslations tr l' d) = applyTranslations tr l d := by
  simp [applyTranslations, List.map_map]

/-- A rendered grid holds exactly one card per record of its collection, in
input order (the empty state holds none, and only arises for the empty
collection). -/
theorem cardList_renderProjectGrid (tr : List (String × JSValue)) (lang : String)
    (l : List Project) :
    (renderProjectGrid tr lang l).cardList =
      l.enum.map (fun ip => createProjectCard tr lang ip.2 ip.1) := by
  unfold renderProjectGrid
  split
  · rename_i h
    have : l = [] := List.length_eq_zero.mp h
    subst this
    rfl
  · rfl

/-- When every status is `ongoing` or `completed`, the two filtered lists
together are a permutation of the collection. -/
theorem filter_partition (projects : List Project)
    (h : ∀ p ∈ projects, p.status = "ongoing" ∨ p.status = "completed") :
    List.Perm
      (projects.filter (fun p => p.status == "ongoing")
        ++ projects.filter (fun p => p.status == "completed"))
      projects := by
  induction projects with
  | nil => simp
  | cons p rest ih =>
      have hp := h p (List.mem_cons_self _ _)
      have hrest := fun q hq => h q (List.mem_cons_of_mem _ hq)
      rcases hp with hp | hp
      · have hne : ¬ (p.status == "completed") = true := by simp [hp]
        simp only [List.filter_cons]
        rw [if_pos (by simp [hp]), if_neg hne]
        exact List.Perm.cons p (ih hrest)
      · have hne : ¬ (p.status == "ongoing") = true := by simp [hp]
        simp only [List.filter_cons]
        rw [if_neg hne, if_pos (by simp [hp])]
        exact List.perm_middle.trans (List.Perm.cons p (ih hrest))

/-! ## Claim theorems -/

/-- C1 (counterexample): `handleMissingKey` does not convert camelCase to
Title Case.  With `en = {"section":{"subTitle":""}}` and `lo = {}`, the key
`"section.subTitle"` is present in the default dictionary but empty in both
languages; the code's placeholder is `"[MISSING: SubTitle]"`, not the
Title-Case form `"[MISSING: Sub Title]"` that the claim's parenthetical
(`specTitleCase`) prescribes. -/
theorem missing_key_camelCase_not_split :
    t [("en", JSValue.obj [("section", JSValue.obj [("subTitle", JSValue.str "")])]),
       ("lo", JSValue.obj [])] "lo" "section.subTitle" =
      JSValue.str "[MISSING: SubTitle]" ∧
    specTitleCase "subTitle" = "Sub Title" ∧
    t [("en", JSValue.obj [("section", JSValue.obj [("subTitle", JSValue.str "")])]),
       ("lo", JSValue.obj [])] "lo" "section.subTitle" ≠
      JSValue.str ("[MISSING: " ++ specTitleCase "subTitle" ++ "]") := by
  have h1 : t [("en", JSValue.obj [("section", JSValue.obj [("subTitle", JSValue.str "")])]),
       ("lo", JSValue.obj [])] "lo" "section.subTitle" =
      JSValue.str (handleMissingKey "section.subTitle" "[MISSING]") := by rfl
  have h2 : handleMissingKey "section.subTitle" "[MISSING]" = "[MISSING: SubTitle]" := by
    decide
  refine ⟨h1.trans (congrArg JSValue.str h2), by decide, ?_⟩
  intro h
  rw [h1.trans (congrArg JSValue.str h2)] at h
  injection h with h'
  exact absurd h' (by decide)

/-- C1 (amended): for every key present in the default-language dictionary
(indeed for every key), `I18n.t` with its default fallback never returns
`undefined` or `null`: it returns a usable value of the active or the
default language, or the placeholder `"[MISSING: X]"` where `X` is the
key's last path segment with underscores/hyphens turned into spaces and
each word-initial character uppercased (camelCase is not split). -/
theorem resolve_total_with_placeholder (tr : List (String × JSValue)) (lang key : String)
    (_hpresent : (getNestedValue (langDict tr fallbackLang) key).isUndef = false) :
    (t tr lang key).isUndef = false ∧ (t tr lang key).isNull = false ∧
    ((t tr lang key = getNestedValue (langDict tr lang) key ∧ usable (t tr lang key) = true) ∨
     (t tr lang key = getNestedValue (langDict tr fallbackLang) key ∧
       usable (t tr lang key) = true) ∨
     t tr lang key =
       JSValue.str ("[MISSING: " ++ readableFromSegment (lastSegment key) ++ "]")) := by
  rw [t_eq]
  split_ifs with h1 h2 h3
  · exact ⟨usable_not_undef _ h1, usable_not_null _ h1, Or.inl ⟨rfl, h1⟩⟩
  · exact ⟨usable_not_undef _ h3, usable_not_null _ h3, Or.inr (Or.inl ⟨rfl, h3⟩)⟩
  · exact ⟨rfl, rfl, Or.inr (Or.inr (by simp [handleMissingKey]))⟩
  · exact ⟨rfl, rfl, Or.inr (Or.inr (by simp [handleMissingKey]))⟩

/-- C1 (witness): the amended theorem applied at a key present in the `en`
dictionary while the active language is `lo`. -/
theorem resolve_total_with_placeholder_witness :
    (getNestedValue (langDict [("en", JSValue.obj [("a", JSValue.str "x")])] fallbackLang)
      "a").isUndef = false ∧
    (t [("en", JSValue.obj [("a", JSValue.str "x")])] "lo" "a").isUndef = false ∧
    (t [("en", JSValue.obj [("a", JSValue.str "x")])] "lo" "a").isNull = false :=
  ⟨by rfl,
   (resolve_total_with_placeholder [("en", JSValue.obj [("a", JSValue.str "x")])]
     "lo" "a" (by rfl)).1,
   (resolve_total_with_placeholder [("en", JSValue.obj [("a", JSValue.str "x")])]
     "lo" "a" (by rfl)).2.1⟩

/-- C2: with every record's status `ongoing` or `completed`, rendering the
two tabs builds one card per record of each filtered list, in input order,
and the two filtered lists partition the collection exactly (their
concatenation is a permutation of the input, and each is an
order-preserving sublist). -/
theorem render_tabs_partition (tr : List (String × JSValue)) (lang : String)
    (projects : List Project)
    (h : ∀ p ∈ projects, p.status = "ongoing" ∨ p.status = "completed") :
    (renderProjectTabs tr lang projects).1.cardList =
      (projects.filter (fun p => p.status == "ongoing")).enum.map
        (fun ip => createProjectCard tr lang ip.2 ip.1) ∧
    (renderProjectTabs tr lang projects).2.cardList =
      (projects.filter (fun p => p.status == "completed")).enum.map
        (fun ip => createProjectCard tr lang ip.2 ip.1) ∧
    List.Perm
      (projects.filter (fun p => p.status == "ongoing")
        ++ projects.filter (fun p => p.status == "completed"))
      projects ∧
    (projects.filter (fun p => p.status == "ongoing")).Sublist projects ∧
    (projects.filter (fun p => p.status == "completed")).Sublist projects :=
  ⟨cardList_renderProjectGrid tr lang _,
   cardList_renderProjectGrid tr lang _,
   filter_partition projects h,
   List.filter_sublist projects,
   List.filter_sublist projects⟩

/-- C2 (witness): the partition theorem applied to the spec's two-record
example collection. -/
theorem render_tabs_partition_witness :
    (∀ p ∈ [bridgeA, roadB], p.status = "ongoing" ∨ p.status = "completed") ∧
    List.Perm
      ([bridgeA, roadB].filter (fun p => p.status == "ongoing")
        ++ [bridgeA, roadB].filter (fun p => p.status == "completed"))
      [bridgeA, roadB] ∧
    (renderProjectTabs [] "en" [bridgeA, roadB]).2.cardList =
      ([bridgeA, roadB].filter (fun p => p.status == "completed")).enum.map
        (fun ip => createProjectCard [] "en" ip.2 ip.1) :=
  ⟨by decide,
   (render_tabs_partition [] "en" [bridgeA, roadB] (by decide)).2.2.1,
   (render_tabs_partition [] "en" [bridgeA, roadB] (by decide)).2.1⟩

/-- C3 (counterexample): `I18n.set` does not reject the unrecognized code
`"fr"`: from the state `{currentLang := en}` it changes the current
language and the persisted preference to `"fr"`, although `"fr"` is neither
`en` nor `lo` — the claim's "left unchanged" is false at this input. -/
theorem set_accepts_unrecognized_code :
    (set [] "fr" (⟨"en", none, "en", []⟩ : I18nState)).currentLang = "fr" ∧
    (set [] "fr" (⟨"en", none, "en", []⟩ : I18nState)).storedLang = some "fr" ∧
    ("fr" : String) ≠ "en" ∧ ("fr" : String) ≠ "lo" :=
  ⟨by rfl, by rfl, by decide, by decide⟩

/-- C3 (amended): `I18n.set` ignores only a code equal to the current
language; any other string — recognized or not — is applied: the current
language, the persisted preference and the document language attribute are
all set to it, so a third state is reachable. -/
theorem set_applies_any_different_code (tr : List (String × JSValue)) (lang : String)
    (st : I18nState) :
    (lang ≠ st.currentLang →
      (set tr lang st).currentLang = lang ∧
      (set tr lang st).storedLang = some lang ∧
      (set tr lang st).docLang = lang) ∧
    set tr st.currentLang st = st := by
  constructor
  · intro h
    unfold set
    rw [if_neg h]
    exact ⟨rfl, rfl, rfl⟩
  · unfold set
    rw [if_pos rfl]

/-- C3 (witness): the amended theorem applied to the unrecognized code
`"fr"` from the initial `en` state. -/
theorem set_applies_any_different_code_witness :
    ("fr" : String) ≠ (⟨"en", none, "en", []⟩ : I18nState).currentLang ∧
    (set [] "fr" (⟨"en", none, "en", []⟩ : I18nState)).currentLang = "fr" ∧
    (set [] "fr" (⟨"en", none, "en", []⟩ : I18nState)).storedLang = some "fr" ∧
    (set [] "fr" (⟨"en", none, "en", []⟩ : I18nState)).docLang = "fr" :=
  ⟨by decide,
   ((set_applies_any_different_code [] "fr" ⟨"en", none, "en", []⟩).1 (by decide)).1,
   ((set_applies_any_different_code [] "fr" ⟨"en", none, "en", []⟩).1 (by decide)).2.1,
   ((set_applies_any_different_code [] "fr" ⟨"en", none, "en", []⟩).1 (by decide)).2.2⟩

/-- C4: `fetchWithRetry` terminates for every success oracle within
`1 + maxRetries` underlying calls with at most `maxRetries` backoff sleeps,
and when every call fails it makes exactly the three retries with the
doubling delays 1000 ms, 2000 ms, 4000 ms before surfacing the failure. -/
theorem fetch_retry_bounded_backoff (oracle : Nat → Bool) :
    (fetchWithRetry oracle 0).calls ≤ 1 + maxRetries ∧
    (fetchWithRetry oracle 0).delays.length ≤ maxRetries ∧
    ((∀ a, oracle a = false) →
      fetchWithRetry oracle 0 =
        { success := false, calls := 4, delays := [1000, 2000, 4000] }) := by
  refine ⟨?_, ?_, ?_⟩
  · cases h0 : oracle 0 <;> cases h1 : oracle 1 <;> cases h2 : oracle 2 <;> cases h3 : oracle 3 <;>
      simp [fetchWithRetry, h0, h1, h2, h3, maxRetries, retryDelay]
  · cases h0 : oracle 0 <;> cases h1 : oracle 1 <;> cases h2 : oracle 2 <;> cases h3 : oracle 3 <;>
      simp [fetchWithRetry, h0, h1, h2, h3, maxRetries, retryDelay]
  · intro hall
    simp [fetchWithRetry, hall 0, hall 1, hall 2, hall 3, maxRetries, retryDelay]

/-- C4 (witness): the retry theorem applied to the always-failing oracle. -/
theorem fetch_retry_bounded_backoff_witness :
    (fetchWithRetry (fun _ => false) 0).calls ≤ 1 + maxRetries ∧
    fetchWithRetry (fun _ => false) 0 =
      { success := false, calls := 4, delays := [1000, 2000, 4000] } :=
  ⟨(fetch_retry_bounded_backoff (fun _ => false)).1,
   (fetch_retry_bounded_backoff (fun _ => false)).2.2 (fun _ => rfl)⟩

/-- C5: when the active language's value for a key is the empty string and
the default language's value is usable, `I18n.t` returns the default
language's value. -/
theorem empty_value_falls_back (tr : List (String × JSValue)) (lang key : String)
    (hempty : getNestedValue (langDict tr lang) key = JSValue.str "")
    (hlang : lang ≠ fallbackLang)
    (husable : usable (getNestedValue (langDict tr fallbackLang) key) = true) :
    t tr lang key = getNestedValue (langDict tr fallbackLang) key := by
  rw [t_eq, hempty]
  rw [if_neg (by simp [usable]), if_pos hlang, if_pos husable]

/-- C5 (witness): the spec's scenario — `en = {"nav":{"home":"Home"}}`,
`lo = {"nav":{"home":""}}`, active language `lo`; resolving `"nav.home"`
yields `"Home"`, not the empty string. -/
theorem empty_value_falls_back_witness :
    t [("en", JSValue.obj [("nav", JSValue.obj [("home", JSValue.str "Home")])]),
       ("lo", JSValue.obj [("nav", JSValue.obj [("home", JSValue.str "")])])]
      "lo" "nav.home" = JSValue.str "Home" :=
  (empty_value_falls_back _ "lo" "nav.home" (by rfl) (by decide) (by rfl)).trans (by rfl)

/-- C6: after the collection loads, a non-empty URL hash equal to some
record's slug opens the detail view for that slug; a hash matching no slug
leaves the detail view closed (and the resolution is a total function — no
error is raised). -/
theorem deep_link_opens_matching_slug (projects : List Project) (hash : String) :
    ((hash ≠ "" ∧ ∃ p ∈ projects, p.slug = hash) →
      resolveDeepLink projects hash = DetailState.expanded hash) ∧
    ((¬ ∃ p ∈ projects, p.slug = hash) →
      resolveDeepLink projects hash = DetailState.closed) := by
  constructor
  · rintro ⟨hne, p, hp, hslug⟩
    unfold resolveDeepLink
    rw [if_pos hne]
    have hsome : (projects.find? (fun q => q.slug == hash)).isSome := by
      rw [List.find?_isSome]
      exact ⟨p, hp, by simp [hslug]⟩
    obtain ⟨q, hq⟩ := Option.isSome_iff_exists.mp hsome
    have hqs := List.find?_some hq
    rw [hq]
    simp only [beq_iff_eq] at hqs
    simp [hqs]
  · intro hno
    unfold resolveDeepLink
    split
    · have hnone : projects.find? (fun q => q.slug == hash) = none := by
        rw [List.find?_eq_none]
        intro q hq
        simp only [beq_iff_eq]
        exact fun he => hno ⟨q, hq, he⟩
      rw [hnone]
    · rfl

/-- C6 (witness): the deep-link theorem applied to a one-record collection,
opening the detail for hash `"bridge-a"` and staying closed for
`"no-such"`. -/
theorem deep_link_opens_matching_slug_witness :
    (("bridge-a" : String) ≠ "" ∧ ∃ p ∈ [bridgeA], p.slug = "bridge-a") ∧
    resolveDeepLink [bridgeA] "bridge-a" = DetailState.expanded "bridge-a" ∧
    resolveDeepLink [bridgeA] "no-such" = DetailState.closed :=
  ⟨⟨by decide, by decide⟩,
   (deep_link_opens_matching_slug [bridgeA] "bridge-a").1 ⟨by decide, by decide⟩,
   (deep_link_opens_matching_slug [bridgeA] "no-such").2 (by decide)⟩

/-- C7: neither the dotted-path traversal nor `I18n.t` can throw: under the
throwing-access semantics, `getNestedValue` always succeeds with a value or
`undefined`, and the body of `t` always succeeds with the pure result (the
source's `try`/`catch` blocks are unreachable). -/
theorem lookup_never_throws (o : JSValue) (path : String)
    (tr : List (String × JSValue)) (lang key fb : String) :
    getNestedValueE o path = Except.ok (getNestedValue o path) ∧
    tE tr lang key fb = Except.ok (t tr lang key fb) := by
  refine ⟨getNestedValueE_ok o path, ?_⟩
  simp only [tE, getNestedValueE_ok, bind, Except.bind]
  rw [t_eq]
  split_ifs <;> rfl

/-- C8: starting from a document whose bound elements carry the `en`
translations, switching the language to `lo` and back to `en` (through
`I18n.set`, with both dictionaries unchanged) restores the exact original
content of every bound element. -/
theorem language_round_trip_restores_dom (tr : List (String × JSValue))
    (s0 : I18nState) (d : List BoundElem)
    (hlang : s0.currentLang = "en") (hdom : s0.dom = applyTranslations tr "en" d) :
    (set tr "en" (set tr "lo" s0)).dom = s0.dom := by
  have h1 : set tr "lo" s0 =
      { currentLang := "lo", storedLang := some "lo", docLang := "lo",
        dom := applyTranslations tr "lo" s0.dom } := by
    unfold set
    rw [if_neg (by simp [hlang])]
  have h2 : (set tr "en" (set tr "lo" s0)).dom =
      applyTranslations tr "en" (applyTranslations tr "lo" s0.dom) := by
    rw [h1]
    unfold set
    rw [if_neg (by simp)]
  rw [h2, hdom, applyTranslations_overwrite, applyTranslations_overwrite]

/-- C8 (witness): the round-trip theorem applied to a one-element document
bound to key `"a"` with `en = {"a":"x"}`. -/
theorem language_round_trip_restores_dom_witness :
    (set [("en", JSValue.obj [("a", JSValue.str "x")])] "en"
      (set [("en", JSValue.obj [("a", JSValue.str "x")])] "lo"
        ⟨"en", some "en", "en",
          applyTranslations [("en", JSValue.obj [("a", JSValue.str "x")])] "en"
            [⟨"a", none, JSValue.undef⟩]⟩)).dom =
    (⟨"en", some "en", "en",
      applyTranslations [("en", JSValue.obj [("a", JSValue.str "x")])] "en"
        [⟨"a", none, JSValue.undef⟩]⟩ : I18nState).dom :=
  language_round_trip_restores_dom [("en", JSValue.obj [("a", JSValue.str "x")])]
    _ [⟨"a", none, JSValue.undef⟩] rfl rfl

/-- C9: a successful fetch stores the fetched dictionary and never reads
the cache (the result is independent of the cache state); on a failed
fetch the slot becomes the built-in fallback, merged with the cached copy
exactly when the cached timestamp is within the 24-hour window, and the
fallback alone when the cache is absent or stale. -/
theorem cache_consulted_only_on_fetch_failure (lang : String) (d : JSValue)
    (cached : Option CacheEntry) (now : Nat) :
    loadTranslationsLang lang (some d) cached now = d ∧
    (∀ entry : CacheEntry,
      loadTranslationsLang lang none (some entry) now =
        if now - entry.timestamp < cacheMaxAge
        then jsSpread2 (getFallbackTranslations lang) entry.translations
        else getFallbackTranslations lang) ∧
    loadTranslationsLang lang none none now = getFallbackTranslations lang := by
  refine ⟨rfl, ?_, rfl⟩
  intro entry
  simp only [loadTranslationsLang, loadFromCache]
  split_ifs <;> rfl

/-- C10: when the caller passes an explicit fallback different from
`"[MISSING]"` and the key has no usable value in the active or the default
language, `I18n.t` returns the caller's fallback verbatim — no
`"[MISSING: ...]"` prefix and no transformation. -/
theorem explicit_fallback_returned_verbatim (tr : List (String × JSValue))
    (lang key fb : String) (hfb : fb ≠ "[MISSING]")
    (ha : usable (getNestedValue (langDict tr lang) key) = false)
    (he : usable (getNestedValue (langDict tr fallbackLang) key) = false) :
    t tr lang key fb = JSValue.str fb := by
  rw [t_eq]
  split_ifs <;> simp_all [handleMissingKey]

/-- C10 (witness): the verbatim-fallback theorem applied to an absent key
with the caller-supplied fallback `"custom"`. -/
theorem explicit_fallback_returned_verbatim_witness :
    t [] "en" "x" "custom" = JSValue.str "custom" :=
  explicit_fallback_returned_verbatim [] "en" "x" "custom"
    (by decide) (by decide) (by decide)

end TPEC
